import Mathlib

/-!
Verification of the ritcher-map search-service core.

Shallow embedding of the search-service Python sources:
  app/utils/cache_keys.py          (CacheKeyBuilder)
  app/services/search_service.py   (SearchService)
  app/services/recommendation_service.py (RecommendationService)
  app/services/analytics_service.py (AnalyticsService trending update)
  app/core/redis.py                (RedisClient.zadd semantics)
  app/models/search.py             (SearchFilter, SearchResponse)

Numeric scores are embedded as rationals; external digests (md5, the
builtin Python hash, the textual repr of a list of pairs) are opaque
function parameters, since only their functional dependence on the
already-canonicalised input matters for the claims.  Python dicts are
embedded as insertion-ordered association lists.
-/

namespace RitcherMap

/-! ## Association lists: model of Python dict -/

/-- First value bound to key `x`, mirroring Python dict lookup
(keys of an embedded dict are unique, so first = only). -/
def aget {β : Type} : List (String × β) → String → Option β
  | [], _ => none
  | (k, v) :: rest, x => if k = x then some v else aget rest x

/-- Keys of an association list, in insertion order. -/
def keysOf {β : Type} (l : List (String × β)) : List String := l.map Prod.fst

/-- Python truthiness of an optional list/dict value: `None` and the
empty collection are falsy, everything else truthy. -/
def optListTruthy {β : Type} : Option (List β) → Bool
  | none => false
  | some l => !l.isEmpty

/-! ## Stable sorting by descending rational score

Python `sorted(xs, key=score, reverse=True)` is a stable descending
sort; `List.insertionSort` with the weak relation below computes the
same list (stable, ties keep original order). -/

/-- Descending comparison on a rational-valued key. -/
def scoreDesc {α : Type} (f : α → ℚ) (a b : α) : Prop := f b ≤ f a

instance {α : Type} (f : α → ℚ) : DecidableRel (scoreDesc f) :=
  fun a b => inferInstanceAs (Decidable (f b ≤ f a))

instance {α : Type} (f : α → ℚ) : IsTotal α (scoreDesc f) :=
  ⟨fun a b => le_total (f b) (f a)⟩

instance {α : Type} (f : α → ℚ) : IsTrans α (scoreDesc f) :=
  ⟨fun _ _ _ h1 h2 => le_trans h2 h1⟩

/-! ## cache_keys.py — CacheKeyBuilder (claims C2, C8) -/

/-- Lexicographic order on (key, value) string pairs: how Python
compares the 2-tuples produced by dict.items() inside sorted(). -/
def pairLe (a b : String × String) : Prop :=
  a.1 < b.1 ∨ (a.1 = b.1 ∧ a.2 ≤ b.2)

instance : DecidableRel pairLe := fun a b =>
  inferInstanceAs (Decidable (a.1 < b.1 ∨ (a.1 = b.1 ∧ a.2 ≤ b.2)))

instance : IsTotal (String × String) pairLe := by
  constructor
  intro a b
  rcases lt_trichotomy a.1 b.1 with h | h | h
  · exact Or.inl (Or.inl h)
  · rcases le_total a.2 b.2 with h2 | h2
    · exact Or.inl (Or.inr ⟨h, h2⟩)
    · exact Or.inr (Or.inr ⟨h.symm, h2⟩)
  · exact Or.inr (Or.inl h)

instance : IsTrans (String × String) pairLe := by
  constructor
  intro a b c hab hbc
  rcases hab with h1 | ⟨h1, h1v⟩
  · rcases hbc with h2 | ⟨h2, _⟩
    · exact Or.inl (lt_trans h1 h2)
    · exact Or.inl (h2 ▸ h1)
  · rcases hbc with h2 | ⟨h2, h2v⟩
    · exact Or.inl (h1 ▸ h2)
    · exact Or.inr ⟨h1.trans h2, le_trans h1v h2v⟩

instance : IsAntisymm (String × String) pairLe := by
  constructor
  intro a b hab hba
  rcases hab with h1 | ⟨h1, h1v⟩
  · rcases hba with h2 | ⟨h2, _⟩
    · exact absurd (lt_trans h1 h2) (lt_irrefl _)
    · exact absurd h1 (h2 ▸ lt_irrefl _)
  · rcases hba with h2 | ⟨h2, h2v⟩
    · exact absurd h2 (h1 ▸ lt_irrefl _)
    · exact Prod.ext h1 (le_antisymm h1v h2v)

/-- Python sorted(data.items()): stable sort of the (key, value)
pairs under tuple (lexicographic) comparison. -/
def sortedItems (l : List (String × String)) : List (String × String) :=
  List.insertionSort pairLe l

/-- CacheKeyBuilder._hash_dict.  `md5hex8` stands for the first 8 hex
chars of the md5 digest, `pyStr` for the Python str() of a list of
pairs; both are opaque parameters applied after canonicalisation.
Falsy data (`None` or the empty dict) yields the sentinel "none". -/
def hash_dict (md5hex8 : String → String) (pyStr : List (String × String) → String)
    (data : Option (List (String × String))) : String :=
  match data with
  | none => "none"
  | some d => if d.isEmpty then "none" else md5hex8 (pyStr (sortedItems d))

/-- CacheKeyBuilder._clean_string. -/
def clean_string (md5hex8 : String → String) (text : String) : String :=
  if text = "" then "none"
  else if 50 < text.length then md5hex8 text
  else String.mk ((text.toList.filter fun c =>
    c.isAlphanum || ("-_".toList.contains c)).map Char.toLower)

/-- CacheKeyBuilder.search_results_key. -/
def search_results_key (md5hex8 : String → String)
    (pyStr : List (String × String) → String)
    (query : String) (filters : Option (List (String × String)))
    (sort : String) (page page_size : ℕ) : String :=
  "ritchermap" ++ ":search:" ++ clean_string md5hex8 query ++ ":" ++
    hash_dict md5hex8 pyStr filters ++ ":" ++ sort ++ ":" ++
    toString page ++ ":" ++ toString page_size

/-- SearchService._generate_cache_key.  `pyHashStr` collapses
str(hash(str(-))) applied to the sorted items list. -/
def generate_cache_key (pyHashStr : List (String × String) → String)
    (query search_type sort : String) (page page_size : ℕ)
    (filters : Option (List (String × String))) : String :=
  let key_parts := ["search", query, search_type, sort, toString page, toString page_size]
  let key_parts := match filters with
    | none => key_parts
    | some f => key_parts ++ [pyHashStr (sortedItems f)]
  String.intercalate ":" key_parts

/-! ## search_service.py — pagination (claim C7) -/

/-- SearchService._process_search_results pagination:
total_pages = (total_hits + page_size - 1) // page_size. -/
def total_pages (total_hits page_size : ℕ) : ℕ :=
  (total_hits + page_size - 1) / page_size

/-! ## search_service.py — SearchService._add_filters (claim C4)

Filter clauses appended to the bool query.  Dates and term values are
opaque strings; coordinates are rationals.  A Python KeyError raised by
indexing a missing bound is an `Except.error` carrying the key. -/

inductive Clause where
  | terms (field : String) (values : List String)
  | dateRange (gte lte : Option String)
  | geoBoundingBox (north south east west : ℚ)
deriving DecidableEq, Repr

/-- SearchFilter (app/models/search.py): all fields optional, the
bounding box an arbitrary string-keyed map (no completeness check). -/
structure SearchFilter where
  game_ids : Option (List String) := none
  category_ids : Option (List String) := none
  tags : Option (List String) := none
  difficulty : Option (List String) := none
  completion_type : Option (List String) := none
  date_range : Option (List (String × String)) := none
  coordinates_bounds : Option (List (String × ℚ)) := none
deriving Repr

/-- Python d[k] on an embedded dict: KeyError on a missing key. -/
def getItem (d : List (String × ℚ)) (k : String) : Except String ℚ :=
  match aget d k with
  | some v => Except.ok v
  | none => Except.error k

/-- The geo_bounding_box part of _add_filters: only entered when
coordinates_bounds is truthy; indexes the four bounds in the order the
Python dict literal evaluates them (north, west, south, east). -/
def geoFilterPart (b : Option (List (String × ℚ))) : Except String (List Clause) :=
  if optListTruthy b then do
    let d := b.getD []
    let n ← getItem d "north"
    let w ← getItem d "west"
    let s ← getItem d "south"
    let e ← getItem d "east"
    pure [Clause.geoBoundingBox n s e w]
  else pure []

/-- The non-geo clauses of _add_filters, in source order. -/
def baseClauses (f : SearchFilter) : List Clause :=
  (if optListTruthy f.game_ids then [Clause.terms "game_id" (f.game_ids.getD [])] else []) ++
  (if optListTruthy f.category_ids then [Clause.terms "category_id" (f.category_ids.getD [])] else []) ++
  (if optListTruthy f.tags then [Clause.terms "tags" (f.tags.getD [])] else []) ++
  (if optListTruthy f.difficulty then [Clause.terms "difficulty" (f.difficulty.getD [])] else []) ++
  (if optListTruthy f.completion_type then [Clause.terms "completion_type" (f.completion_type.getD [])] else []) ++
  (match f.date_range with
    | none => []
    | some d => if d.isEmpty then [] else [Clause.dateRange (aget d "start") (aget d "end")])

/-- SearchService._add_filters: the final bool-filter clause list, or
the KeyError a partial bounding box raises. -/
def add_filters (f : SearchFilter) : Except String (List Clause) :=
  match geoFilterPart f.coordinates_bounds with
  | Except.ok geo => Except.ok (baseClauses f ++ geo)
  | Except.error k => Except.error k

/-- Whether a clause is the geographic bounding-box clause. -/
def isGeoClause : Clause → Bool
  | Clause.geoBoundingBox _ _ _ _ => true
  | _ => false

/-! ## recommendation_service.py — _find_similar_users (claim C3) -/

/-- config.py SIMILARITY_THRESHOLD default. -/
def SIMILARITY_THRESHOLD : ℚ := 7/10

/-- The similarity _find_similar_users computes for a candidate user:
distinct common clicked items divided by the size of the requesting
click set of the requesting user (the code labels this Jaccard). -/
def userSimilarity (user_items other_items : Finset ℕ) : ℚ :=
  ((user_items ∩ other_items).card : ℚ) / (user_items.card : ℚ)

/-- Modelled from the spec: Jaccard similarity, intersection size over
union size, stated for comparison with `userSimilarity`. -/
def jaccard (a b : Finset ℕ) : ℚ :=
  ((a ∩ b).card : ℚ) / ((a ∪ b).card : ℚ)

/-- _find_similar_users: candidate users come from an aggregation over
events whose clicked item is in the requesting user set, so only
users with at least one common item appear; each kept when its
similarity reaches the threshold, then sorted descending. -/
def find_similar_users (user_items : Finset ℕ)
    (others : List (String × Finset ℕ)) (threshold : ℚ) : List (String × ℚ) :=
  let buckets := others.filter fun p => (user_items ∩ p.2).card ≠ 0
  let kept := buckets.filterMap fun p =>
    let s := userSimilarity user_items p.2
    if threshold ≤ s then some (p.1, s) else none
  List.insertionSort (scoreDesc Prod.snd) kept

/-! ## recommendation_service.py — _hybrid_recommendations (claim C1) -/

/-- One strategy output row as consumed by the hybrid merge: item id,
the strategy-specific score field (similarity_score /
recommendation_score / popularity_score) and the reason string. -/
structure SRec where
  id : String
  score : ℚ
  reason : String
deriving DecidableEq, Repr

/-- One combined_scores dict entry: accumulated weighted score, the
first contributing row (whose dict is copied into the output), and the
reasons appended so far. -/
structure Entry where
  score : ℚ
  data : SRec
  reasons : List String
deriving DecidableEq, Repr

/-- One merged output row: dict key, merged recommendation_score and
deduplicated reasons. -/
structure OutRec where
  id : String
  recommendation_score : ℚ
  reasons : List String
  data : SRec
deriving DecidableEq, Repr

/-- The in-place mutation the weighting loop applies to an existing
entry: add the weighted score and append the reason. -/
def updateEntry (w : ℚ) (r : SRec) (e : Entry) : Entry :=
  ⟨e.score + w * r.score, e.data, e.reasons ++ [r.reason]⟩

/-- One iteration of a weighting loop in _hybrid_recommendations:
insert a fresh entry when the id is new, then add the weighted score
and append the reason. -/
def addRec (w : ℚ) (acc : List (String × Entry)) (r : SRec) : List (String × Entry) :=
  match aget acc r.id with
  | some _ => acc.map fun p =>
      if p.1 = r.id then (p.1, updateEntry w r p.2)
      else p
  | none => acc ++ [(r.id, ⟨w * r.score, r, [r.reason]⟩)]

/-- One whole weighting loop over the rows of one strategy. -/
def addStrategy (w : ℚ) (acc : List (String × Entry)) (recs : List SRec) : List (String × Entry) :=
  recs.foldl (addRec w) acc

/-- combined_scores after the three weighting loops of
_hybrid_recommendations: content 0.4, collaborative 0.4, popularity 0.2. -/
def hybridCombine (content collaborative popularity : List SRec) : List (String × Entry) :=
  addStrategy (2/10) (addStrategy (4/10) (addStrategy (4/10) [] content) collaborative) popularity

/-- _hybrid_recommendations: sort combined entries by descending
combined score (stable), truncate to the limit, and emit each with its
merged score and deduplicated reasons. -/
def hybrid_recommendations (content collaborative popularity : List SRec) (limit : ℕ) : List OutRec :=
  let sorted_items := List.insertionSort (scoreDesc fun p : String × Entry => p.2.score)
    (hybridCombine content collaborative popularity)
  (sorted_items.take limit).map fun p => ⟨p.1, p.2.score, p.2.reasons.dedup, p.2.data⟩

/-- First strategy row carrying a given id. -/
def findRec : List SRec → String → Option SRec
  | [], _ => none
  | r :: rest, x => if r.id = x then some r else findRec rest x

/-- The score a strategy contributes for an id, 0 when absent. -/
def scoreOf (recs : List SRec) (x : String) : ℚ :=
  ((findRec recs x).map SRec.score).getD 0

/-- The reasons a strategy contributes for an id. -/
def reasonsOf (recs : List SRec) (x : String) : List String :=
  ((findRec recs x).map fun r => [r.reason]).getD []

/-- Accumulated score stored under a key, 0 when the key is absent. -/
def entryScore (l : List (String × Entry)) (x : String) : ℚ :=
  ((aget l x).map Entry.score).getD 0

/-- Accumulated reasons stored under a key. -/
def entryReasons (l : List (String × Entry)) (x : String) : List String :=
  ((aget l x).map Entry.reasons).getD []

/-! ## recommendation_service.py — get_recommendations flow and
_popularity_based_recommendations (claims C5, C10) -/

/-- An Elasticsearch hit _source as read by
_popularity_based_recommendations (every field through .get). -/
structure ESHit where
  id : Option String
  title : Option String
  game_id : Option String
  game_name : Option String
  popularity_score : Option ℚ
deriving DecidableEq, Repr

/-- A popularity recommendation row. -/
structure PopRec where
  id : Option String
  title : Option String
  type : String
  game_id : Option String
  game_name : Option String
  popularity_score : ℚ
  reason : String
deriving DecidableEq, Repr

/-- _popularity_based_recommendations: the es search runs inside try,
so a search failure yields the empty list; the client handle itself is
a global and cannot fail.  Hits map to rows with popularity_score
defaulted to 0 and reason "Popular item". -/
def popularity_based_recommendations (esResponse : Except Unit (List ESHit))
    (item_type : String) : List PopRec :=
  match esResponse with
  | Except.error _ => []
  | Except.ok hits => hits.map fun h =>
      ⟨h.id, h.title, item_type, h.game_id, h.game_name, (h.popularity_score).getD 0, "Popular item"⟩

/-- The strategy dispatch of get_recommendations; each branch outcome
(a list, or a raised runtime error) is an input. -/
def dispatchStrategy (strategy : String)
    (contentRes collaborativeRes popularityRes hybridRes : Except Unit (List PopRec)) :
    Except Unit (List PopRec) :=
  if strategy = "content" then contentRes
  else if strategy = "collaborative" then collaborativeRes
  else if strategy = "popularity" then popularityRes
  else hybridRes

/-- get_recommendations: serve a truthy cached list; otherwise run the
selected strategy inside try, and on any raised error fall back to
_popularity_based_recommendations (cache get/set absorb their own
errors and never raise). -/
def get_recommendations (cached : Option (List PopRec)) (strategy : String)
    (contentRes collaborativeRes popularityRes hybridRes : Except Unit (List PopRec))
    (esPopResponse : Except Unit (List ESHit)) (item_type : String) :
    Except Unit (List PopRec) :=
  if optListTruthy cached then Except.ok (cached.getD [])
  else
    match dispatchStrategy strategy contentRes collaborativeRes popularityRes hybridRes with
    | Except.ok recs => Except.ok recs
    | Except.error _ => Except.ok (popularity_based_recommendations esPopResponse item_type)

/-- SearchService.search cache gate: a cached value is served iff it is
truthy (a non-empty dict) and DEBUG is off. -/
def searchServesCached (cached : Option (List (String × String))) (debug : Bool) : Bool :=
  optListTruthy cached && !debug

/-- The dict SearchResponse(hits=[], total_hits=0, ...).dict() caches
for a zero-hit search: eight keys, hence truthy. -/
def emptySearchResponseDict : List (String × String) :=
  [("hits", "[]"), ("total_hits", "0"), ("page", "1"), ("page_size", "20"),
   ("total_pages", "0"), ("took_ms", "0"), ("suggestions", "None"), ("facets", "None")]

/-! ## recommendation_service.py — _content_based_recommendations (claim C6) -/

/-- One row of the trained item feature table. -/
structure CItem where
  id : String
  title : String
  type : String
  game_id : Option String
  game_name : Option String
deriving DecidableEq, Repr

/-- One content recommendation row. -/
structure CRec where
  id : String
  title : String
  type : String
  game_id : Option String
  game_name : Option String
  similarity_score : ℚ
  reason : String
deriving DecidableEq, Repr

/-- Python truthiness of game_id: None and the empty string are falsy. -/
def optStrTruthy : Option String → Bool
  | none => false
  | some s => !(s = "")

/-- The game filter of the content loop: skip when game_id is truthy
and the item carries a different game_id. -/
def gameMismatch (game_id : Option String) (it : CItem) : Bool :=
  optStrTruthy game_id && !(it.game_id = game_id)

/-- The output row built for a kept item. -/
def mkCRec (it : CItem) (score : ℚ) : CRec :=
  ⟨it.id, it.title, it.type, it.game_id, it.game_name, score, "Similar content"⟩

/-- The for-loop of _content_based_recommendations over the sliced
similarity ranking: out-of-range access is caught and skipped, game
and type mismatches continue, and the loop breaks once the limit is
reached (checked after each append). -/
def contentLoop (items : List CItem) (item_type : String) (game_id : Option String)
    (limit : ℕ) : List (ℕ × ℚ) → List CRec → List CRec
  | [], acc => acc
  | (idx, score) :: rest, acc =>
    match items[idx]? with
    | none => contentLoop items item_type game_id limit rest acc
    | some it =>
      if gameMismatch game_id it then contentLoop items item_type game_id limit rest acc
      else if !(it.type = item_type) then contentLoop items item_type game_id limit rest acc
      else
        let acc2 := acc ++ [mkCRec it score]
        if limit ≤ acc2.length then acc2
        else contentLoop items item_type game_id limit rest acc2

/-- The per-candidate decision of the loop, as one partial map: the
row kept for a ranked (index, similarity) pair, none when skipped. -/
def contentKeep (items : List CItem) (item_type : String) (game_id : Option String)
    (p : ℕ × ℚ) : Option CRec :=
  match items[p.1]? with
  | none => none
  | some it =>
    if gameMismatch game_id it then none
    else if !(it.type = item_type) then none
    else some (mkCRec it p.2)

/-- _content_based_recommendations: an absent seed falls back to the
popularity result (an input, as it depends on the index); otherwise
rank every item by similarity to the seed (stable descending), slice
positions 1 to limit*2 - 1, and scan that window with the filter loop. -/
def content_based_recommendations (items : List CItem) (matrix : List (List ℚ))
    (item_id item_type : String) (game_id : Option String) (limit : ℕ)
    (popFallback : List CRec) : List CRec :=
  match items.findIdx? (fun it => it.id = item_id) with
  | none => popFallback
  | some idx =>
    let sim_scores := List.insertionSort (scoreDesc (Prod.snd (α := ℕ)))
      ((matrix[idx]?).getD []).enum
    let window := (sim_scores.drop 1).take (limit * 2 - 1)
    contentLoop items item_type game_id limit window []

/-- Modelled from the spec: the CONTENT strategy as §4.5 words it —
rank all other items by similarity to the seed, keep those matching
the requested type and game scope, exclude the seed, return the top N
by descending similarity.  Stated for comparison with
`content_based_recommendations`. -/
def content_based_per_spec (items : List CItem) (matrix : List (List ℚ))
    (item_id item_type : String) (game_id : Option String) (limit : ℕ)
    (popFallback : List CRec) : List CRec :=
  match items.findIdx? (fun it => it.id = item_id) with
  | none => popFallback
  | some idx =>
    let row := ((matrix[idx]?).getD []).enum
    let kept := row.filterMap fun p =>
      if p.1 = idx then none else contentKeep items item_type game_id p
    (List.insertionSort (scoreDesc CRec.similarity_score) kept).take limit

/-- Concrete three-item feature table: seed "s" (a marker), "a" (a
game, most similar to the seed) and "b" (a marker). -/
def cItems : List CItem :=
  [⟨"s", "Seed", "marker", none, none⟩,
   ⟨"a", "Alike", "game", none, none⟩,
   ⟨"b", "Byway", "marker", none, none⟩]

/-- Similarity matrix over `cItems`: the seed is most similar to "a",
then to "b" (integer-valued scores keep the model concrete). -/
def cMatrix : List (List ℚ) :=
  [[3, 2, 1], [2, 3, 0], [1, 0, 3]]

/-! ## analytics_service.py — _update_trending_queries with
RedisClient.zadd (claim C9) -/

/-- Redis ZADD for one member under default flags: set that member
score, overwriting any previous score (it does not increment). -/
def zaddSingle (scores : List (String × Int)) (member : String) (score : Int) :
    List (String × Int) :=
  match aget scores member with
  | some _ => scores.map fun p => if p.1 = member then (p.1, score) else p
  | none => scores ++ [(member, score)]

/-- The hourly trending sorted set together with its pending expiry. -/
structure TrendingSet where
  scores : List (String × Int)
  ttlSeconds : Option ℕ
deriving DecidableEq, Repr

/-- _update_trending_queries for the current hour: zadd the normalized
query with score 1, then set a 90000-second (25 h) expiry. -/
def update_trending_queries (st : TrendingSet) (normalized_query : String) : TrendingSet :=
  ⟨zaddSingle st.scores normalized_query 1, some 90000⟩

/-- Track the same normalized query n times within one clock hour. -/
def trackSearches : ℕ → String → TrendingSet → TrendingSet
  | 0, _, st => st
  | n + 1, q, st => trackSearches n q (update_trending_queries st q)

/-! ## Concrete inputs used by counterexamples and witnesses -/

/-- A filter supplying 3 of the 4 geographic bounds. -/
def threeOfFourBounds : SearchFilter :=
  { coordinates_bounds := some [("north", 1), ("south", 0), ("east", 1)] }

/-- A filter supplying all 4 geographic bounds. -/
def fullBounds : SearchFilter :=
  { coordinates_bounds := some [("north", 4), ("west", 1), ("south", 3), ("east", 2)] }

/-! # Theorems -/

/-! ## Claim C2 — cache key for omitted versus empty filter -/

/-- Claim C2 counterexample: an omitted filter (None) and an explicitly
empty filter map produce the SAME search-results cache key, because
Python truthiness sends both to the "none" sentinel: the claimed
non-collision is false. -/
theorem search_key_none_vs_empty_collide :
    search_results_key (fun s => s) (fun _ => "") "zelda" none "relevance" 1 20 =
      search_results_key (fun s => s) (fun _ => "") "zelda" (some []) "relevance" 1 20 := rfl

/-- Claim C2 (amended): both the omitted filter and the explicitly
empty filter map to the sentinel token "none" (which is distinct from
the empty string), so the two logical requests always collide to the
identical cache key. -/
theorem hash_dict_sentinel_collision (md5hex8 : String → String)
    (pyStr : List (String × String) → String) (query sort : String)
    (page page_size : ℕ) :
    hash_dict md5hex8 pyStr none = "none" ∧
    hash_dict md5hex8 pyStr (some []) = "none" ∧
    search_results_key md5hex8 pyStr query none sort page page_size =
      search_results_key md5hex8 pyStr query (some []) sort page page_size ∧
    ("none" : String) ≠ "" := by
  refine ⟨rfl, rfl, rfl, by decide⟩

/-! ## Claim C5 — recommendation errors never propagate -/

/-- Claim C5: whatever the cache holds and however the selected
strategy and the popularity fallback search turn out, get_recommendations
returns a list and never a raised error; and when the strategy raises
and the fallback search also fails, the result is the empty list. -/
theorem get_recommendations_no_propagation (cached : Option (List PopRec))
    (strategy : String)
    (contentRes collaborativeRes popularityRes hybridRes : Except Unit (List PopRec))
    (esPopResponse : Except Unit (List ESHit)) (item_type : String) :
    (∃ l, get_recommendations cached strategy contentRes collaborativeRes
        popularityRes hybridRes esPopResponse item_type = Except.ok l) ∧
    (optListTruthy cached = false →
      dispatchStrategy strategy contentRes collaborativeRes popularityRes hybridRes =
        Except.error () →
      esPopResponse = Except.error () →
      get_recommendations cached strategy contentRes collaborativeRes
        popularityRes hybridRes esPopResponse item_type = Except.ok []) := by
  constructor
  · unfold get_recommendations
    by_cases h : optListTruthy cached = true
    · rw [if_pos h]; exact ⟨_, rfl⟩
    · rw [if_neg h]
      cases hd : dispatchStrategy strategy contentRes collaborativeRes popularityRes hybridRes with
      | ok recs => exact ⟨recs, rfl⟩
      | error e => exact ⟨_, rfl⟩
  · intro h1 h2 h3
    unfold get_recommendations
    rw [if_neg (by simp [h1]), h2, h3]
    rfl

/-- Claim C5 witness: with an empty cache, the hybrid strategy raising
and the popularity search failing, the result is ok []. -/
theorem get_recommendations_no_propagation_witness :
    get_recommendations none "hybrid" (Except.error ()) (Except.error ())
      (Except.error ()) (Except.error ()) (Except.error ()) "marker" = Except.ok [] :=
  (get_recommendations_no_propagation none "hybrid" (Except.error ()) (Except.error ())
    (Except.error ()) (Except.error ()) (Except.error ()) "marker").2 rfl rfl rfl

/-! ## Claim C7 — total_pages is the ceiling of total_hits / page_size -/

/-- Claim C7: for page_size in [1, 100] and any total_hits, the
computed total_pages equals the ceiling of total_hits / page_size. -/
theorem total_pages_eq_ceil (total_hits page_size : ℕ) (h1 : 1 ≤ page_size)
    (h2 : page_size ≤ 100) :
    (total_pages total_hits page_size : ℤ) =
      ⌈(total_hits : ℚ) / (page_size : ℚ)⌉ := by
  have hps0 : 0 < page_size := h1
  have hpsQ : (0 : ℚ) < (page_size : ℚ) := by exact_mod_cast hps0
  unfold total_pages
  have key := Nat.div_add_mod (total_hits + page_size - 1) page_size
  have hr : (total_hits + page_size - 1) % page_size < page_size :=
    Nat.mod_lt _ hps0
  generalize hq : (total_hits + page_size - 1) / page_size = q at key ⊢
  obtain ⟨A, hA⟩ : ∃ A, page_size * q = A := ⟨_, rfl⟩
  rw [hA] at key
  have hub : total_hits ≤ A := by omega
  have hlb : A < total_hits + page_size := by omega
  have hAq : (A : ℚ) = (page_size : ℚ) * (q : ℚ) := by exact_mod_cast hA.symm
  rw [eq_comm, Int.ceil_eq_iff]
  constructor
  · have h1' : (A : ℚ) < (total_hits : ℚ) + (page_size : ℚ) := by exact_mod_cast hlb
    rw [lt_div_iff₀ hpsQ]
    push_cast
    nlinarith [hAq, h1']
  · have h2' : (total_hits : ℚ) ≤ (A : ℚ) := by exact_mod_cast hub
    rw [div_le_iff₀ hpsQ]
    push_cast
    nlinarith [hAq, h2']

/-- Claim C7 witness: 7 hits at page size 3 give 3 pages. -/
theorem total_pages_eq_ceil_witness :
    1 ≤ 3 ∧ (total_pages 7 3 : ℤ) = ⌈((7 : ℕ) : ℚ) / ((3 : ℕ) : ℚ)⌉ :=
  ⟨by decide, total_pages_eq_ceil 7 3 (by decide) (by decide)⟩

/-! ## Claim C9 — hourly trending score versus track count -/

/-- Claim C9 evidence: tracking the same normalized query twice within
one hour leaves its trending score at 1, not 2, because ZADD under
default flags overwrites the score; the 25-hour expiry is set. -/
theorem trending_score_after_two_tracks :
    (trackSearches 2 "elden ring" ⟨[], none⟩).scores = [("elden ring", 1)] ∧
    (trackSearches 2 "elden ring" ⟨[], none⟩).ttlSeconds = some 90000 := by
  exact ⟨rfl, rfl⟩

/-! ## Claim C10 — falsy cached values and cached empty responses -/

/-- Claim C10 counterexample: a cached zero-hit search response is a
non-empty dict, hence truthy, and IS served straight from cache (DEBUG
off) — contradicting the claim that cached empty responses are always
recomputed. -/
theorem empty_search_response_served_from_cache :
    searchServesCached (some emptySearchResponseDict) false = true := rfl

/-- Claim C10 (amended): get_recommendations treats a cached empty
list exactly like a cache miss and recomputes; SearchService.search
treats a missing or empty-dict cached value (or DEBUG mode) as a miss,
but a cached zero-hit response dict is truthy and is served from
cache rather than recomputed. -/
theorem falsy_cached_values_recomputed (strategy : String)
    (contentRes collaborativeRes popularityRes hybridRes : Except Unit (List PopRec))
    (esPopResponse : Except Unit (List ESHit)) (item_type : String) (debug : Bool) :
    get_recommendations (some []) strategy contentRes collaborativeRes
        popularityRes hybridRes esPopResponse item_type =
      get_recommendations none strategy contentRes collaborativeRes
        popularityRes hybridRes esPopResponse item_type ∧
    searchServesCached none debug = false ∧
    searchServesCached (some []) debug = false ∧
    (∀ c, searchServesCached c true = false) ∧
    searchServesCached (some emptySearchResponseDict) false = true := by
  refine ⟨rfl, rfl, rfl, ?_, rfl⟩
  intro c
  simp [searchServesCached]

/-! ## Claim C3 — neighbor similarity is not Jaccard -/

/-- Claim C3 counterexample: for a click set A holding only item 0 and
a neighbor click set B holding items 0 and 1, the code computes
similarity 1 (common items over the size of A alone), while Jaccard
(intersection over union) is 1/2; at the default threshold 0.7 the
code therefore keeps a neighbor that Jaccard would reject. -/
theorem user_similarity_not_jaccard :
    userSimilarity {0} {0, 1} = 1 ∧
    jaccard {0} {0, 1} = 1 / 2 ∧
    userSimilarity {0} {0, 1} ≠ jaccard {0} {0, 1} ∧
    SIMILARITY_THRESHOLD ≤ userSimilarity {0} {0, 1} ∧
    ¬ SIMILARITY_THRESHOLD ≤ jaccard {0} {0, 1} ∧
    find_similar_users {0} [("u", {0, 1})] SIMILARITY_THRESHOLD = [("u", 1)] := by
  have hsim : userSimilarity {0} {0, 1} = 1 := by
    rw [userSimilarity, show (({0} : Finset ℕ) ∩ {0, 1}).card = 1 from rfl,
      show ({0} : Finset ℕ).card = 1 from rfl]
    norm_num
  have hjac : jaccard {0} {0, 1} = 1 / 2 := by
    rw [jaccard, show (({0} : Finset ℕ) ∩ {0, 1}).card = 1 from rfl,
      show (({0} : Finset ℕ) ∪ {0, 1}).card = 2 from rfl]
    norm_num
  refine ⟨hsim, hjac, by rw [hsim, hjac]; norm_num,
    by rw [hsim]; norm_num [SIMILARITY_THRESHOLD],
    by rw [hjac]; norm_num [SIMILARITY_THRESHOLD], ?_⟩
  unfold find_similar_users
  rw [show List.filter (fun p => decide ((({0} : Finset ℕ) ∩ p.2).card ≠ 0))
      [("u", ({0, 1} : Finset ℕ))] = [("u", ({0, 1} : Finset ℕ))] from rfl]
  simp only [List.filterMap, hsim]
  norm_num [SIMILARITY_THRESHOLD, List.insertionSort, List.orderedInsert]

/-- Claim C3 (amended): the similarity _find_similar_users computes is
the number of common clicked items divided by the size of the
click set of the requesting user (not intersection over union); it still
lies in [0, 1] whenever the requesting click set is non-empty
(always the case, as an empty history falls back to popularity), and a
neighbor appears in the output only with similarity at least the
configured threshold, default 0.7. -/
theorem user_similarity_amended (user_items : Finset ℕ)
    (others : List (String × Finset ℕ)) (threshold : ℚ)
    (hA : user_items.Nonempty) :
    (∀ B, userSimilarity user_items B =
        ((user_items ∩ B).card : ℚ) / (user_items.card : ℚ) ∧
      0 ≤ userSimilarity user_items B ∧ userSimilarity user_items B ≤ 1) ∧
    (∀ p ∈ find_similar_users user_items others threshold, threshold ≤ p.2) ∧
    SIMILARITY_THRESHOLD = 7 / 10 := by
  have hc : (0 : ℚ) < (user_items.card : ℚ) := by
    exact_mod_cast Finset.card_pos.mpr hA
  refine ⟨?_, ?_, rfl⟩
  · intro B
    refine ⟨rfl, ?_, ?_⟩
    · exact div_nonneg (by positivity) hc.le
    · rw [userSimilarity, div_le_one hc]
      exact_mod_cast Finset.card_le_card Finset.inter_subset_left
  · intro p hp
    unfold find_similar_users at hp
    rw [List.mem_insertionSort] at hp
    rcases List.mem_filterMap.mp hp with ⟨q, _, hsome⟩
    by_cases h : threshold ≤ userSimilarity user_items q.2
    · simp only [if_pos h] at hsome
      cases hsome
      exact h
    · simp only [if_neg h] at hsome
      cases hsome

/-- Claim C3 witness: the amended statement applied to the concrete
click sets of the counterexample. -/
theorem user_similarity_amended_witness :
    (∀ B, userSimilarity {0} B = (((({0} : Finset ℕ) ∩ B).card : ℚ)) / ((({0} : Finset ℕ).card : ℚ)) ∧
      0 ≤ userSimilarity {0} B ∧ userSimilarity {0} B ≤ 1) ∧
    (∀ p ∈ find_similar_users {0} [("u", ({0, 1} : Finset ℕ))] (7 / 10), (7 : ℚ) / 10 ≤ p.2) ∧
    SIMILARITY_THRESHOLD = 7 / 10 :=
  user_similarity_amended {0} [("u", {0, 1})] (7 / 10) ⟨0, by decide⟩

/-! ## Claim C4 — partial geographic bounds -/

/-- Claim C4 counterexample: a filter carrying only north, south and
east (no west) does not succeed with the geo clause skipped — query
construction raises a KeyError for "west". -/
theorem partial_bounds_raise_key_error :
    add_filters threeOfFourBounds = Except.error "west" := rfl

/-- Claim C4 (amended): an absent or empty bounds map adds no
geographic clause and construction succeeds (no base clause is ever
the geo clause); a non-empty bounds map with all four bounds present
adds exactly the bounding-box clause; a non-empty bounds map missing
one of the four bounds makes query construction fail with a KeyError
instead of ignoring the partial bounds. -/
theorem add_filters_bounds_amended (f : SearchFilter) (d : List (String × ℚ)) :
    (∀ c ∈ baseClauses f, isGeoClause c = false) ∧
    (optListTruthy f.coordinates_bounds = false →
      add_filters f = Except.ok (baseClauses f)) ∧
    (f.coordinates_bounds = some d → d ≠ [] →
      ((∀ n, aget d "north" = some n → ∀ w, aget d "west" = some w →
        ∀ s, aget d "south" = some s → ∀ e, aget d "east" = some e →
          add_filters f = Except.ok
            (baseClauses f ++ [Clause.geoBoundingBox n s e w])) ∧
       ((aget d "north" = none ∨ aget d "west" = none ∨
         aget d "south" = none ∨ aget d "east" = none) →
          ∃ k, add_filters f = Except.error k))) := by
  refine ⟨?_, ?_, ?_⟩
  · intro c hc
    simp only [baseClauses, List.mem_append] at hc
    rcases hc with ((((hc | hc) | hc) | hc) | hc) | hc
    · split at hc <;> simp_all [isGeoClause]
    · split at hc <;> simp_all [isGeoClause]
    · split at hc <;> simp_all [isGeoClause]
    · split at hc <;> simp_all [isGeoClause]
    · split at hc <;> simp_all [isGeoClause]
    · rcases hd : f.date_range with _ | d0
      · simp [hd] at hc
      · rw [hd] at hc
        split at hc <;> simp_all [isGeoClause]
  · intro h
    simp [add_filters, geoFilterPart, h, pure, Except.pure]
  · intro hb hne
    have htr : optListTruthy (some d) = true := by
      cases d with
      | nil => cases hne rfl
      | cons a t => rfl
    constructor
    · intro n hn w hw s hs e he
      simp [add_filters, geoFilterPart, htr, hb, getItem, hn, hw, hs, he,
        Bind.bind, Except.bind, pure, Except.pure]
    · intro hmiss
      cases hn : aget d "north" with
      | none =>
        exact ⟨"north", by simp [add_filters, geoFilterPart, htr, hb, getItem, hn,
          Bind.bind, Except.bind]⟩
      | some n =>
        cases hw : aget d "west" with
        | none =>
          exact ⟨"west", by simp [add_filters, geoFilterPart, htr, hb, getItem, hn, hw,
            Bind.bind, Except.bind]⟩
        | some w =>
          cases hs : aget d "south" with
          | none =>
            exact ⟨"south", by simp [add_filters, geoFilterPart, htr, hb, getItem, hn, hw, hs,
              Bind.bind, Except.bind]⟩
          | some s =>
            cases he : aget d "east" with
            | none =>
              exact ⟨"east", by simp [add_filters, geoFilterPart, htr, hb, getItem, hn, hw, hs, he,
                Bind.bind, Except.bind]⟩
            | some e =>
              rcases hmiss with h | h | h | h <;> simp_all

/-- Claim C4 witness: the amended statement evaluated at the full and
the partial bounds filters. -/
theorem add_filters_bounds_amended_witness :
    add_filters fullBounds = Except.ok
      (baseClauses fullBounds ++ [Clause.geoBoundingBox 4 3 2 1]) ∧
    ∃ k, add_filters threeOfFourBounds = Except.error k := by
  constructor
  · exact ((add_filters_bounds_amended fullBounds
      [("north", 4), ("west", 1), ("south", 3), ("east", 2)]).2.2 rfl (by decide)).1
      4 rfl 1 rfl 3 rfl 2 rfl
  · exact ((add_filters_bounds_amended threeOfFourBounds
      [("north", 1), ("south", 0), ("east", 1)]).2.2 rfl (by decide)).2
      (Or.inr (Or.inl rfl))

/-! ## Claim C8 — cache key independent of filter insertion order -/

/-- Two permuted pair lists sort to the identical canonical list:
tuple comparison is a linear (hence antisymmetric) order. -/
theorem sortedItems_perm_eq {l1 l2 : List (String × String)} (h : l1.Perm l2) :
    sortedItems l1 = sortedItems l2 :=
  List.eq_of_perm_of_sorted
    ((List.perm_insertionSort pairLe l1).trans
      (h.trans (List.perm_insertionSort pairLe l2).symm))
    (List.sorted_insertionSort pairLe l1)
    (List.sorted_insertionSort pairLe l2)

/-- Claim C8: building a search-results cache key from the same filter
map with keys in any two insertion orders yields the identical key
string, for SearchService._generate_cache_key and
CacheKeyBuilder._hash_dict alike: the key depends only on the sorted
(key, value) content. -/
theorem cache_key_insertion_order_independent
    (pyHashStr : List (String × String) → String)
    (md5hex8 : String → String) (pyStr : List (String × String) → String)
    (query search_type sort : String) (page page_size : ℕ)
    (l1 l2 : List (String × String)) (hperm : l1.Perm l2)
    (hkeys : (keysOf l1).Nodup) :
    generate_cache_key pyHashStr query search_type sort page page_size (some l1) =
      generate_cache_key pyHashStr query search_type sort page page_size (some l2) ∧
    hash_dict md5hex8 pyStr (some l1) = hash_dict md5hex8 pyStr (some l2) := by
  have hs : sortedItems l1 = sortedItems l2 := sortedItems_perm_eq hperm
  have hemp : l1.isEmpty = l2.isEmpty := by
    cases l1 with
    | nil => rw [hperm.nil_eq]
    | cons a t =>
      cases l2 with
      | nil => exact absurd hperm.symm.nil_eq (by simp)
      | cons b u => rfl
  constructor
  · simp only [generate_cache_key, hs]
  · simp only [hash_dict, hs, hemp]

/-- Claim C8 witness: a two-entry filter map in its two insertion
orders yields equal keys. -/
theorem cache_key_insertion_order_independent_witness :
    generate_cache_key (fun l => toString l.length) "q" "all" "relevance" 1 20
        (some [("b", "2"), ("a", "1")]) =
      generate_cache_key (fun l => toString l.length) "q" "all" "relevance" 1 20
        (some [("a", "1"), ("b", "2")]) ∧
    hash_dict (fun s => s) (fun _ => "x") (some [("b", "2"), ("a", "1")]) =
      hash_dict (fun s => s) (fun _ => "x") (some [("a", "1"), ("b", "2")]) :=
  cache_key_insertion_order_independent (fun l => toString l.length) (fun s => s)
    (fun _ => "x") "q" "all" "relevance" 1 20 [("b", "2"), ("a", "1")]
    [("a", "1"), ("b", "2")] (List.Perm.swap ("a", "1") ("b", "2") []) (by decide)

/-! ## Claim C1 — hybrid merge: helper lemmas on the combined dict -/

theorem aget_append {β : Type} (l1 l2 : List (String × β)) (x : String) :
    aget (l1 ++ l2) x = match aget l1 x with
      | some v => some v
      | none => aget l2 x := by
  induction l1 with
  | nil => rfl
  | cons p rest ih =>
    obtain ⟨a, b⟩ := p
    by_cases h : a = x
    · simp [aget, h]
    · simp [aget, h, ih]

theorem aget_map_update {β : Type} (l : List (String × β)) (k : String) (g : β → β)
    (x : String) :
    aget (l.map fun p => if p.1 = k then (p.1, g p.2) else p) x =
      if x = k then (aget l x).map g else aget l x := by
  induction l with
  | nil => simp [aget]
  | cons p rest ih =>
    obtain ⟨a, b⟩ := p
    simp only [List.map_cons]
    by_cases hak : a = k
    · rw [if_pos hak]
      subst hak
      by_cases hax : a = x
      · subst hax
        simp [aget]
      · rw [show aget ((a, g b) :: List.map (fun p => if p.1 = a then (p.1, g p.2) else p) rest) x =
            aget (List.map (fun p => if p.1 = a then (p.1, g p.2) else p) rest) x from by
              simp [aget, hax]]
        rw [ih]
        simp [aget, hax]
    · rw [if_neg hak]
      by_cases hax : a = x
      · subst hax
        simp [aget, hak]
      · rw [show aget ((a, b) :: List.map (fun p => if p.1 = k then (p.1, g p.2) else p) rest) x =
            aget (List.map (fun p => if p.1 = k then (p.1, g p.2) else p) rest) x from by
              simp [aget, hax]]
        rw [ih]
        simp [aget, hax]

theorem aget_eq_none_iff {β : Type} (l : List (String × β)) (x : String) :
    aget l x = none ↔ x ∉ keysOf l := by
  induction l with
  | nil => simp [aget, keysOf]
  | cons p rest ih =>
    obtain ⟨a, b⟩ := p
    by_cases h : a = x
    · simp [aget, h, keysOf]
    · simp [aget, h, keysOf, Ne.symm h] at ih ⊢
      exact ih

theorem aget_of_mem {β : Type} {l : List (String × β)} {x : String} {v : β}
    (hnd : (keysOf l).Nodup) (h : (x, v) ∈ l) : aget l x = some v := by
  induction l with
  | nil => cases h
  | cons p rest ih =>
    obtain ⟨a, b⟩ := p
    simp only [keysOf, List.map_cons, List.nodup_cons] at hnd
    rcases List.mem_cons.mp h with heq | hmem
    · injection heq with h1 h2
      subst h1; subst h2
      simp [aget]
    · by_cases hax : a = x
      · subst hax
        exact absurd (List.mem_map_of_mem Prod.fst hmem) hnd.1
      · simpa [aget, hax] using ih hnd.2 hmem

theorem keysOf_addRec (w : ℚ) (acc : List (String × Entry)) (r : SRec) :
    keysOf (addRec w acc r) =
      if (aget acc r.id).isSome then keysOf acc else keysOf acc ++ [r.id] := by
  unfold addRec
  cases h : aget acc r.id with
  | none => simp [keysOf]
  | some e =>
    simp only [h, Option.isSome_some, if_pos]
    rw [keysOf, List.map_map, keysOf]
    apply List.map_congr_left
    intro p _
    by_cases hp : p.1 = r.id <;> simp [hp]

theorem nodup_keys_addRec (w : ℚ) (acc : List (String × Entry)) (r : SRec)
    (h : (keysOf acc).Nodup) : (keysOf (addRec w acc r)).Nodup := by
  rw [keysOf_addRec]
  cases hg : aget acc r.id with
  | some e => simpa [hg] using h
  | none =>
    have hnotin : r.id ∉ keysOf acc := (aget_eq_none_iff acc r.id).mp hg
    simp only [hg, Option.isSome_none, Bool.false_eq_true, if_neg, ite_false]
    rw [List.nodup_append]
    exact ⟨h, List.nodup_singleton _, by simpa using hnotin⟩

theorem nodup_keys_addStrategy (w : ℚ) (recs : List SRec) (acc : List (String × Entry))
    (h : (keysOf acc).Nodup) : (keysOf (addStrategy w acc recs)).Nodup := by
  induction recs generalizing acc with
  | nil => exact h
  | cons r rs ih => exact ih (addRec w acc r) (nodup_keys_addRec w acc r h)

theorem aget_addRec_self (w : ℚ) (acc : List (String × Entry)) (r : SRec) :
    aget (addRec w acc r) r.id = some (match aget acc r.id with
      | some e => ⟨e.score + w * r.score, e.data, e.reasons ++ [r.reason]⟩
      | none => ⟨w * r.score, r, [r.reason]⟩) := by
  unfold addRec
  cases h : aget acc r.id with
  | none =>
    show aget (acc ++ [(r.id, ⟨w * r.score, r, [r.reason]⟩)]) r.id = _
    rw [aget_append, h]
    simp [aget]
  | some e =>
    show aget (acc.map fun p => if p.1 = r.id then (p.1, updateEntry w r p.2) else p) r.id =
      some ⟨e.score + w * r.score, e.data, e.reasons ++ [r.reason]⟩
    rw [aget_map_update, if_pos rfl, h]
    rfl

theorem aget_addRec_ne (w : ℚ) (acc : List (String × Entry)) (r : SRec) (x : String)
    (hx : x ≠ r.id) : aget (addRec w acc r) x = aget acc x := by
  unfold addRec
  cases h : aget acc r.id with
  | none =>
    show aget (acc ++ [(r.id, ⟨w * r.score, r, [r.reason]⟩)]) x = _
    rw [aget_append]
    cases h2 : aget acc x with
    | some v => rfl
    | none => simp [aget, Ne.symm hx]
  | some e =>
    show aget (acc.map fun p => if p.1 = r.id then (p.1, updateEntry w r p.2) else p) x =
      aget acc x
    rw [aget_map_update, if_neg hx]

theorem entryScore_addRec_self (w : ℚ) (acc : List (String × Entry)) (r : SRec) :
    entryScore (addRec w acc r) r.id = entryScore acc r.id + w * r.score := by
  unfold entryScore
  rw [aget_addRec_self]
  cases h : aget acc r.id <;> simp [h]

theorem entryReasons_addRec_self (w : ℚ) (acc : List (String × Entry)) (r : SRec) :
    entryReasons (addRec w acc r) r.id = entryReasons acc r.id ++ [r.reason] := by
  unfold entryReasons
  rw [aget_addRec_self]
  cases h : aget acc r.id <;> simp [h]

theorem entryScore_addRec_ne (w : ℚ) (acc : List (String × Entry)) (r : SRec)
    (x : String) (hx : x ≠ r.id) :
    entryScore (addRec w acc r) x = entryScore acc x := by
  unfold entryScore
  rw [aget_addRec_ne w acc r x hx]

theorem entryReasons_addRec_ne (w : ℚ) (acc : List (String × Entry)) (r : SRec)
    (x : String) (hx : x ≠ r.id) :
    entryReasons (addRec w acc r) x = entryReasons acc x := by
  unfold entryReasons
  rw [aget_addRec_ne w acc r x hx]

theorem findRec_eq_none {recs : List SRec} {x : String} (h : x ∉ recs.map SRec.id) :
    findRec recs x = none := by
  induction recs with
  | nil => rfl
  | cons r rs ih =>
    simp only [List.map_cons, List.mem_cons, not_or] at h
    have hne : ¬ r.id = x := fun hh => h.1 hh.symm
    simp [findRec, hne, ih h.2]

theorem addStrategy_entryScore (w : ℚ) (recs : List SRec)
    (hnd : (recs.map SRec.id).Nodup) (acc : List (String × Entry)) (x : String) :
    entryScore (addStrategy w acc recs) x = entryScore acc x + w * scoreOf recs x := by
  induction recs generalizing acc with
  | nil => simp [addStrategy, scoreOf, findRec]
  | cons r rs ih =>
    simp only [List.map_cons, List.nodup_cons] at hnd
    obtain ⟨hnotin, hnd2⟩ := hnd
    show entryScore (addStrategy w (addRec w acc r) rs) x = _
    rw [ih hnd2 (addRec w acc r)]
    by_cases hx : x = r.id
    · subst hx
      rw [entryScore_addRec_self]
      have hz : scoreOf rs r.id = 0 := by
        rw [scoreOf, findRec_eq_none hnotin]
        rfl
      have hs : scoreOf (r :: rs) r.id = r.score := by
        simp [scoreOf, findRec]
      rw [hz, hs]
      ring
    · rw [entryScore_addRec_ne w acc r x hx]
      have : scoreOf (r :: rs) x = scoreOf rs x := by
        simp [scoreOf, findRec, Ne.symm hx]
      rw [this]

theorem addStrategy_entryReasons (w : ℚ) (recs : List SRec)
    (hnd : (recs.map SRec.id).Nodup) (acc : List (String × Entry)) (x : String) :
    entryReasons (addStrategy w acc recs) x = entryReasons acc x ++ reasonsOf recs x := by
  induction recs generalizing acc with
  | nil => simp [addStrategy, reasonsOf, findRec]
  | cons r rs ih =>
    simp only [List.map_cons, List.nodup_cons] at hnd
    obtain ⟨hnotin, hnd2⟩ := hnd
    show entryReasons (addStrategy w (addRec w acc r) rs) x = _
    rw [ih hnd2 (addRec w acc r)]
    by_cases hx : x = r.id
    · subst hx
      rw [entryReasons_addRec_self]
      have hz : reasonsOf rs r.id = [] := by
        rw [reasonsOf, findRec_eq_none hnotin]
        rfl
      have hs : reasonsOf (r :: rs) r.id = [r.reason] := by
        simp [reasonsOf, findRec]
      rw [hz, hs, List.append_nil]
    · rw [entryReasons_addRec_ne w acc r x hx]
      have : reasonsOf (r :: rs) x = reasonsOf rs x := by
        simp [reasonsOf, findRec, Ne.symm hx]
      rw [this]

theorem hybridCombine_props (content collaborative popularity : List SRec)
    (hc : (content.map SRec.id).Nodup) (hb : (collaborative.map SRec.id).Nodup)
    (hp : (popularity.map SRec.id).Nodup) (x : String) :
    entryScore (hybridCombine content collaborative popularity) x =
      4 / 10 * scoreOf content x + 4 / 10 * scoreOf collaborative x +
        2 / 10 * scoreOf popularity x ∧
    entryReasons (hybridCombine content collaborative popularity) x =
      reasonsOf content x ++ reasonsOf collaborative x ++ reasonsOf popularity x ∧
    (keysOf (hybridCombine content collaborative popularity)).Nodup := by
  unfold hybridCombine
  refine ⟨?_, ?_, ?_⟩
  · rw [addStrategy_entryScore _ _ hp, addStrategy_entryScore _ _ hb,
      addStrategy_entryScore _ _ hc]
    show (0 : ℚ) + _ + _ + _ = _
    ring
  · rw [addStrategy_entryReasons _ _ hp, addStrategy_entryReasons _ _ hb,
      addStrategy_entryReasons _ _ hc]
    show ([] : List String) ++ _ ++ _ ++ _ = _
    simp
  · exact nodup_keys_addStrategy _ _ _
      (nodup_keys_addStrategy _ _ _
        (nodup_keys_addStrategy _ _ _ (by simp [keysOf])))

/-- Claim C1: for the hybrid strategy (given per-strategy outputs with
unique item ids, as each strategy produces), for every merged item the
recommendation_score equals 0.4 times its content similarity score
plus 0.4 times its collaborative recommendation score plus 0.2 times
its popularity score, an absent item contributing 0 for that strategy;
the returned list is sorted by descending merged score, holds at most
limit items (exactly limit when enough items were merged), and each
item carries exactly the deduplicated reasons of its contributing
strategies. -/
theorem hybrid_recommendations_correct (content collaborative popularity : List SRec)
    (limit : ℕ) (hc : (content.map SRec.id).Nodup)
    (hb : (collaborative.map SRec.id).Nodup)
    (hp : (popularity.map SRec.id).Nodup) :
    (hybrid_recommendations content collaborative popularity limit).length =
      min limit (hybridCombine content collaborative popularity).length ∧
    List.Pairwise (fun a b : OutRec => b.recommendation_score ≤ a.recommendation_score)
      (hybrid_recommendations content collaborative popularity limit) ∧
    ∀ r ∈ hybrid_recommendations content collaborative popularity limit,
      r.recommendation_score =
        4 / 10 * scoreOf content r.id + 4 / 10 * scoreOf collaborative r.id +
          2 / 10 * scoreOf popularity r.id ∧
      r.reasons.Nodup ∧
      (∀ s, s ∈ r.reasons ↔
        s ∈ reasonsOf content r.id ++ reasonsOf collaborative r.id ++
          reasonsOf popularity r.id) := by
  have hkeys : (keysOf (hybridCombine content collaborative popularity)).Nodup :=
    (hybridCombine_props content collaborative popularity hc hb hp "").2.2
  have hsorted : List.Pairwise (scoreDesc fun p : String × Entry => p.2.score)
      (List.insertionSort (scoreDesc fun p : String × Entry => p.2.score)
        (hybridCombine content collaborative popularity)) :=
    List.sorted_insertionSort _ _
  refine ⟨?_, ?_, ?_⟩
  · simp [hybrid_recommendations, List.length_take,
      (List.perm_insertionSort (scoreDesc fun p : String × Entry => p.2.score)
        (hybridCombine content collaborative popularity)).length_eq]
  · rw [hybrid_recommendations, List.pairwise_map]
    exact List.Pairwise.imp (fun h => h)
      (List.Pairwise.sublist (List.take_sublist _ _) hsorted)
  · intro r hr
    simp only [hybrid_recommendations, List.mem_map] at hr
    obtain ⟨p, hpmem, rfl⟩ := hr
    have hpc : p ∈ hybridCombine content collaborative popularity :=
      (List.mem_insertionSort _).mp (List.take_subset _ _ hpmem)
    have hag : aget (hybridCombine content collaborative popularity) p.1 = some p.2 := by
      apply aget_of_mem hkeys
      cases p
      exact hpc
    have hprops := hybridCombine_props content collaborative popularity hc hb hp p.1
    have hscore : p.2.score = entryScore (hybridCombine content collaborative popularity) p.1 := by
      rw [entryScore, hag]
      rfl
    have hreasons : p.2.reasons =
        entryReasons (hybridCombine content collaborative popularity) p.1 := by
      rw [entryReasons, hag]
      rfl
    refine ⟨?_, List.nodup_dedup _, ?_⟩
    · show p.2.score = _
      rw [hscore, hprops.1]
    · intro s
      rw [show (⟨p.1, p.2.score, p.2.reasons.dedup, p.2.data⟩ : OutRec).reasons =
        p.2.reasons.dedup from rfl]
      rw [List.mem_dedup, hreasons, hprops.2.1]

/-- Claim C1 witness: the merge of three one-row strategy outputs. -/
theorem hybrid_recommendations_correct_witness :
    (hybrid_recommendations [⟨"a", 1, "Similar content"⟩]
        [⟨"b", 2, "Users with similar interests also liked this"⟩]
        [⟨"a", 3, "Popular item"⟩] 2).length =
      min 2 (hybridCombine [⟨"a", 1, "Similar content"⟩]
        [⟨"b", 2, "Users with similar interests also liked this"⟩]
        [⟨"a", 3, "Popular item"⟩]).length ∧
    List.Pairwise (fun a b : OutRec => b.recommendation_score ≤ a.recommendation_score)
      (hybrid_recommendations [⟨"a", 1, "Similar content"⟩]
        [⟨"b", 2, "Users with similar interests also liked this"⟩]
        [⟨"a", 3, "Popular item"⟩] 2) ∧
    ∀ r ∈ hybrid_recommendations [⟨"a", 1, "Similar content"⟩]
        [⟨"b", 2, "Users with similar interests also liked this"⟩]
        [⟨"a", 3, "Popular item"⟩] 2,
      r.recommendation_score =
        4 / 10 * scoreOf [⟨"a", 1, "Similar content"⟩] r.id +
          4 / 10 * scoreOf [⟨"b", 2, "Users with similar interests also liked this"⟩] r.id +
          2 / 10 * scoreOf [⟨"a", 3, "Popular item"⟩] r.id ∧
      r.reasons.Nodup ∧
      (∀ s, s ∈ r.reasons ↔
        s ∈ reasonsOf [⟨"a", 1, "Similar content"⟩] r.id ++
          reasonsOf [⟨"b", 2, "Users with similar interests also liked this"⟩] r.id ++
          reasonsOf [⟨"a", 3, "Popular item"⟩] r.id) :=
  hybrid_recommendations_correct [⟨"a", 1, "Similar content"⟩]
    [⟨"b", 2, "Users with similar interests also liked this"⟩]
    [⟨"a", 3, "Popular item"⟩] 2 (by decide) (by decide) (by decide)

/-! ## Claim C6 — content-based recommendations -/

/-- The content loop with room left in the accumulator is filter then
take: it keeps matching candidates in window order and stops at the
limit. -/
theorem contentLoop_eq (items : List CItem) (item_type : String) (game_id : Option String)
    (limit : ℕ) (w : List (ℕ × ℚ)) :
    ∀ acc : List CRec, acc.length < limit →
      contentLoop items item_type game_id limit w acc =
        acc ++ (w.filterMap (contentKeep items item_type game_id)).take (limit - acc.length) := by
  induction w with
  | nil => intro acc _; simp [contentLoop]
  | cons p rest ih =>
    intro acc hlt
    obtain ⟨idx, score⟩ := p
    rw [List.filterMap_cons]
    cases hit : items[idx]? with
    | none =>
      have hkeep : contentKeep items item_type game_id (idx, score) = none := by
        simp [contentKeep, hit]
      simp only [contentLoop, hit, hkeep]
      exact ih acc hlt
    | some it =>
      by_cases hg : gameMismatch game_id it = true
      · have hkeep : contentKeep items item_type game_id (idx, score) = none := by
          simp [contentKeep, hit, hg]
        simp only [contentLoop, hit, hkeep, if_pos hg]
        exact ih acc hlt
      · by_cases ht : (!(it.type = item_type)) = true
        · have hkeep : contentKeep items item_type game_id (idx, score) = none := by
            simp only [contentKeep, hit]
            rw [if_neg hg, if_pos ht]
          simp only [contentLoop, hit, hkeep, if_neg hg, if_pos ht]
          exact ih acc hlt
        · have hkeep : contentKeep items item_type game_id (idx, score) =
              some (mkCRec it score) := by
            simp only [contentKeep, hit]
            rw [if_neg hg, if_neg ht]
          simp only [contentLoop, hit, hkeep, if_neg hg, if_neg ht]
          by_cases hbreak : limit ≤ (acc ++ [mkCRec it score]).length
          · rw [if_pos hbreak]
            have h1 : limit - acc.length = 1 := by
              simp only [List.length_append, List.length_cons, List.length_nil] at hbreak ⊢
              omega
            rw [h1]
            simp
          · rw [if_neg hbreak]
            have hlt2 : (acc ++ [mkCRec it score]).length < limit := by
              omega
            rw [ih _ hlt2]
            have h2 : limit - acc.length = (limit - (acc ++ [mkCRec it score]).length) + 1 := by
              simp only [List.length_append, List.length_cons, List.length_nil] at hbreak ⊢
              omega
            rw [h2, List.take_succ_cons]
            simp

/-- What surviving the per-candidate filter implies. -/
theorem contentKeep_spec {items : List CItem} {item_type : String}
    {game_id : Option String} {p : ℕ × ℚ} {r : CRec}
    (h : contentKeep items item_type game_id p = some r) :
    r.similarity_score = p.2 ∧ r.type = item_type ∧
    (∀ g, game_id = some g → ¬ g = "" → r.game_id = some g) := by
  unfold contentKeep at h
  cases hit : items[p.1]? with
  | none =>
    simp only [hit] at h
    cases h
  | some it =>
    simp only [hit] at h
    by_cases hg : gameMismatch game_id it = true
    · rw [if_pos hg] at h; cases h
    · rw [if_neg hg] at h
      by_cases ht : (!(it.type = item_type)) = true
      · rw [if_pos ht] at h; cases h
      · rw [if_neg ht] at h
        injection h with h
        subst h
        have htype : it.type = item_type := by
          simpa using ht
        refine ⟨rfl, htype, ?_⟩
        intro g hgid hgne
        subst hgid
        by_cases hit2 : it.game_id = some g
        · exact hit2
        · exfalso
          apply hg
          simp [gameMismatch, optStrTruthy, hgne, hit2]

/-- Claim C6 counterexample: with seed "s", type marker, limit 1, the
code scans only the single best-ranked candidate after the top entry
(item "a", a game) and returns nothing, while the spec description —
top 1 over ALL other matching items — returns item "b": the code does
not return the top N matching items. -/
theorem content_window_counterexample :
    content_based_recommendations cItems cMatrix "s" "marker" none 1 [] = [] ∧
    content_based_per_spec cItems cMatrix "s" "marker" none 1 [] =
      [⟨"b", "Byway", "marker", none, none, 1, "Similar content"⟩] ∧
    content_based_recommendations cItems cMatrix "s" "marker" none 1 [] ≠
      content_based_per_spec cItems cMatrix "s" "marker" none 1 [] := by
  refine ⟨?_, ?_, ?_⟩ <;> decide

/-- Claim C6 (amended): an absent seed yields the popularity result;
otherwise the engine examines only the 2·limit − 1 highest-similarity
entries after the top-ranked one (stable descending order), keeps
those matching the requested type and truthy game scope, and returns
the first at most limit of them in descending similarity order —
matching items outside that window are never returned, and the seed is
excluded only as the top-ranked entry. -/
theorem content_based_amended (items : List CItem) (matrix : List (List ℚ))
    (item_id item_type : String) (game_id : Option String) (limit : ℕ)
    (popFallback : List CRec) (hlim : 1 ≤ limit) :
    (items.findIdx? (fun it => it.id = item_id) = none →
      content_based_recommendations items matrix item_id item_type game_id limit popFallback =
        popFallback) ∧
    (∀ idx, items.findIdx? (fun it => it.id = item_id) = some idx →
      content_based_recommendations items matrix item_id item_type game_id limit popFallback =
        ((((List.insertionSort (scoreDesc (Prod.snd (α := ℕ)))
            ((matrix[idx]?).getD []).enum).drop 1).take (limit * 2 - 1)).filterMap
          (contentKeep items item_type game_id)).take limit ∧
      (content_based_recommendations items matrix item_id item_type game_id limit
        popFallback).length ≤ limit ∧
      List.Pairwise (fun a b : CRec => b.similarity_score ≤ a.similarity_score)
        (content_based_recommendations items matrix item_id item_type game_id limit
          popFallback) ∧
      ∀ r ∈ content_based_recommendations items matrix item_id item_type game_id limit
          popFallback,
        r.type = item_type ∧ ∀ g, game_id = some g → ¬ g = "" → r.game_id = some g) := by
  constructor
  · intro hnone
    unfold content_based_recommendations
    rw [hnone]
  · intro idx hidx
    have heq : content_based_recommendations items matrix item_id item_type game_id limit
        popFallback =
        ((((List.insertionSort (scoreDesc (Prod.snd (α := ℕ)))
            ((matrix[idx]?).getD []).enum).drop 1).take (limit * 2 - 1)).filterMap
          (contentKeep items item_type game_id)).take limit := by
      simp only [content_based_recommendations, hidx]
      rw [contentLoop_eq items item_type game_id limit _ [] (by simpa using hlim)]
      simp
    refine ⟨heq, ?_, ?_, ?_⟩
    · rw [heq]
      simp [List.length_take]
    · rw [heq]
      have hsorted : List.Pairwise (scoreDesc (Prod.snd (α := ℕ)))
          (List.insertionSort (scoreDesc (Prod.snd (α := ℕ)))
            ((matrix[idx]?).getD []).enum) :=
        List.sorted_insertionSort _ _
      have hwin : List.Pairwise (scoreDesc (Prod.snd (α := ℕ)))
          (((List.insertionSort (scoreDesc (Prod.snd (α := ℕ)))
            ((matrix[idx]?).getD []).enum).drop 1).take (limit * 2 - 1)) :=
        List.Pairwise.sublist
          ((List.take_sublist _ _).trans (List.drop_sublist _ _)) hsorted
      apply List.Pairwise.sublist (List.take_sublist _ _)
      apply List.Pairwise.filterMap (contentKeep items item_type game_id)
      · intro a b hab x hx y hy
        rw [(contentKeep_spec hx).1, (contentKeep_spec hy).1]
        exact hab
      · exact hwin
    · intro r hr
      rw [heq] at hr
      have hr2 := List.take_subset _ _ hr
      rcases List.mem_filterMap.mp hr2 with ⟨p, _, hkeep⟩
      exact ⟨(contentKeep_spec hkeep).2.1, (contentKeep_spec hkeep).2.2⟩

/-- Claim C6 witness: the amended statement at the concrete three-item
table, where the seed is present at index 0. -/
theorem content_based_amended_witness :
    content_based_recommendations cItems cMatrix "s" "marker" none 1 [] =
      ((((List.insertionSort (scoreDesc (Prod.snd (α := ℕ)))
          ((cMatrix[0]?).getD []).enum).drop 1).take (1 * 2 - 1)).filterMap
        (contentKeep cItems "marker" none)).take 1 ∧
    (content_based_recommendations cItems cMatrix "s" "marker" none 1 []).length ≤ 1 := by
  have h := (content_based_amended cItems cMatrix "s" "marker" none 1 [] (by decide)).2
    0 (by decide)
  exact ⟨h.1, h.2.1⟩

end RitcherMap

